import Mathlib

/-!
Verification of the reconciliation engine of `app.py` (headscale-cloudflare-dnssync).

The engine (`perform_sync_cycle`) is embedded shallowly below.  External
collaborators that are not part of the engine (the Cloudflare HTTP wrappers,
the Tailscale/Headscale inventory fetchers, `alterHostname`,
`isValidDNSRecord`, `isTailscaleIP`, and the stdlib IP parser) are passed in
as parameters in `Externals`, exactly at the interface boundary the design
document draws.  The effect of the record mutator on the zone is modelled
from the design document, since its code is outside the engine.
-/

namespace DnsSync

/-- Python `str.lower()` restricted to the ASCII mapping of `Char.toLower`,
applied characterwise; hostnames and domains handled by the engine are ASCII. -/
def pyLower (s : String) : String := ⟨s.data.map Char.toLower⟩

/-- Python `s.split('.')` at the character-list level: splits at every dot,
always returns a non-empty list (`[""]` for the empty string). -/
def splitOnDot : List Char → List (List Char)
  | [] => [[]]
  | c :: rest =>
    match splitOnDot rest with
    | [] => [[c]]
    | h :: t => if c = '.' then [] :: h :: t else (c :: h) :: t

/-- Python `s.split('.')[0]`. -/
def firstLabel (s : String) : String := ⟨(splitOnDot s.data).headD []⟩

/-- Python `s.endswith(t)`. -/
def pyEndsWith (s t : String) : Bool := t.data.isSuffixOf s.data

/-- One mesh device as returned by the inventory fetchers (`ts_records` entry). -/
structure MeshDevice where
  hostname : String
  address : String
deriving DecidableEq

/-- One DNS record as returned by `getZoneRecords`. -/
structure ZoneRecord where
  id : String
  name : String
  content : String
deriving DecidableEq

/-- One value of the `current_ts_fqdns_ips` dictionary (app.py line 65). -/
structure DesiredRecord where
  fqdn : String
  address : String
  original_hostname : String
deriving DecidableEq

/-- The external collaborators of the engine, at their interface boundary:
the hostname transform, the hostname-validity predicate, the mesh-address
predicate, and `ipaddress.ip_address(·).version` (`none` models the
`ValueError` raised on an unparsable address). -/
structure Externals where
  alterHostname : String → String
  isValidDNSRecord : String → Bool
  isTailscaleIP : String → Bool
  ipVersion : String → Option Nat

/-- The configuration fields the engine reads: `mode`, `cf-domain`, `cf-sub`
(`none` or `some ""` are both falsy in the Python truthiness test). -/
structure SyncConfig where
  mode : String
  cf_domain : String
  cf_sub : Option String

/-- `"." + config.get("cf-sub").lower() if config.get("cf-sub") else ""`
(app.py lines 62 and 105). -/
def subPart (cfg : SyncConfig) : String :=
  match cfg.cf_sub with
  | none => ""
  | some s => if s = "" then "" else "." ++ pyLower s

/-- `expected_ending` of app.py line 105: the managed suffix. -/
def managedSuffix (cfg : SyncConfig) : String :=
  subPart cfg ++ "." ++ pyLower cfg.cf_domain

/-- `_tsfqdn` of app.py lines 63-64:
`alterHostname(hostname.split('.')[0].lower()) + _sub + "." + domain.lower()`. -/
def fqdnOf (ext : Externals) (cfg : SyncConfig) (hostname : String) : String :=
  ext.alterHostname (pyLower (firstLabel hostname)) ++ subPart cfg ++ "." ++ pyLower cfg.cf_domain

/-- The dictionary value inserted at app.py line 65. -/
def desiredOf (ext : Externals) (cfg : SyncConfig) (dev : MeshDevice) : DesiredRecord :=
  ⟨fqdnOf ext cfg dev.hostname, dev.address, dev.hostname⟩

/-- The dictionary key of app.py line 65: `_tsfqdn + "_" + address`. -/
def keyOf (ext : Externals) (cfg : SyncConfig) (dev : MeshDevice) : String :=
  fqdnOf ext cfg dev.hostname ++ "_" ++ dev.address

/-- Python dict assignment `m[k] = v`: replaces the value at an existing key
in place, otherwise appends the binding at the end (insertion order). -/
def insertKey : List (String × DesiredRecord) → String → DesiredRecord → List (String × DesiredRecord)
  | [], k, v => [(k, v)]
  | (k', v') :: rest, k, v =>
    if k' = k then (k', v) :: rest else (k', v') :: insertKey rest k v

/-- The `current_ts_fqdns_ips` dictionary built at app.py lines 60-65
(the Desired-State Builder), as an insertion-ordered association list. -/
def current_ts_fqdns_ips (ext : Externals) (cfg : SyncConfig)
    (devs : List MeshDevice) : List (String × DesiredRecord) :=
  devs.foldl (fun m d => insertKey m (keyOf ext cfg d) (desiredOf ext cfg d)) []

/-- Classification of one desired record by the creation loop. -/
inductive CreateClass where
  | upToDate
  | adding
  | skipInvalid
deriving DecidableEq

/-- The arguments of one `createDNSRecord` call (app.py line 82). -/
structure CreateCall where
  label : String
  recType : String
  address : String
  sub : Option String
deriving DecidableEq

/-- The match test of app.py line 73:
`any(c['name'].lower() == tsfqdn and c['content'] == ts_address for c in cf_records_current)`. -/
def isMatched (zone : List ZoneRecord) (d : DesiredRecord) : Bool :=
  zone.any (fun c => pyLower c.name == d.fqdn && c.content == d.address)

/-- The branch taken by the creation loop body (app.py lines 73-84) for one
desired record: `none` models the `ValueError` of `ipaddress.ip_address`
on line 76 aborting the cycle. -/
def createClassOf (ext : Externals) (zone : List ZoneRecord) (d : DesiredRecord) :
    Option CreateClass :=
  if isMatched zone d then some CreateClass.upToDate
  else
    match ext.ipVersion d.address with
    | none => none
    | some _ =>
      if ext.isValidDNSRecord d.original_hostname then some CreateClass.adding
      else some CreateClass.skipInvalid

/-- The `createDNSRecord` call of app.py line 82:
`original_hostname.split('.')[0].lower()`, `records_typemap[ip.version]`,
the address, and the raw `cf-sub` value. -/
def mkCall (cfg : SyncConfig) (d : DesiredRecord) (v : Nat) : CreateCall :=
  ⟨pyLower (firstLabel d.original_hostname), if v = 4 then "A" else "AAAA", d.address, cfg.cf_sub⟩

/-- The creation loop of app.py lines 68-84 over the desired items, returning
the classifications, the issued create calls, and whether the loop ran to
completion (false when an address failed to parse, aborting the cycle). -/
def runCreation (ext : Externals) (cfg : SyncConfig) (zone : List ZoneRecord) :
    List (String × DesiredRecord) → List CreateClass × List CreateCall × Bool
  | [] => ([], [], true)
  | (_, d) :: rest =>
    match createClassOf ext zone d with
    | none => ([], [], false)
    | some cl =>
      let r := runCreation ext cfg zone rest
      (cl :: r.1,
       (if cl = CreateClass.adding then [mkCall cfg d ((ext.ipVersion d.address).getD 4)] else []) ++ r.2.1,
       r.2.2)

/-- Classification of one zone record by the cleanup loop. -/
inductive CleanupClass where
  | currentRec
  | outOfScope
  | nonMeshIP
  | deleteStale
deriving DecidableEq

/-- The cleanup loop body of app.py lines 93-124 for one zone record:
key-membership test (line 98), suffix test (lines 105-107), mesh-address
test (lines 117-119), else stale (lines 123-124). -/
def cleanupClassify (ext : Externals) (cfg : SyncConfig)
    (desired : List (String × DesiredRecord)) (r : ZoneRecord) : CleanupClass :=
  if desired.any (fun p => p.1 == pyLower r.name ++ "_" ++ r.content) then CleanupClass.currentRec
  else if !(pyEndsWith (pyLower r.name) (managedSuffix cfg)) then CleanupClass.outOfScope
  else if !(ext.isTailscaleIP r.content) then CleanupClass.nonMeshIP
  else CleanupClass.deleteStale

/-- Modelled from the spec: `cloudflare.createDNSRecord` is not under `src/`;
per the design document the mutator receives the untransformed lower-cased
label plus the optional subdomain and creates, in the managed zone, the
address record this system considers authoritative for that label — i.e. the
record whose name is the transformed label joined with the optional
subdomain part and the lower-cased domain, and whose content is the given
address.  The record id is provider-assigned and irrelevant to the engine. -/
def createdRecord (ext : Externals) (cfg : SyncConfig) (c : CreateCall) : ZoneRecord :=
  ⟨"created", ext.alterHostname c.label ++ subPart cfg ++ "." ++ pyLower cfg.cf_domain, c.address⟩

/-- The observable outcome of one sync cycle. -/
structure CycleResult where
  createClasses : List CreateClass
  createCalls : List CreateCall
  deleteCalls : List ZoneRecord
  finalZone : List ZoneRecord
  completed : Bool
deriving DecidableEq

/-- One full cycle of `perform_sync_cycle` (app.py lines 19-124) on the happy
fetch path: the mode dispatch (lines 37-45), the Desired-State Builder
(lines 60-65), the creation loop (lines 68-84), the snapshot re-fetch
(line 88, modelled from the spec as the initial snapshot plus the records
just created), and the cleanup loop (lines 93-124, with
`deleteDNSRecord`, not under `src/`, modelled from the spec as removing
exactly the record it is invoked on, ids being distinct). -/
def perform_sync_cycle (ext : Externals) (cfg : SyncConfig)
    (inventory : List MeshDevice) (zone0 : List ZoneRecord) : CycleResult :=
  if cfg.mode = "tailscale" ∨ cfg.mode = "headscale" then
    let desired := current_ts_fqdns_ips ext cfg inventory
    let r := runCreation ext cfg zone0 desired
    if r.2.2 then
      let zone1 := zone0 ++ r.2.1.map (createdRecord ext cfg)
      ⟨r.1, r.2.1,
       zone1.filter (fun z => cleanupClassify ext cfg desired z == CleanupClass.deleteStale),
       zone1.filter (fun z => !(cleanupClassify ext cfg desired z == CleanupClass.deleteStale)),
       true⟩
    else
      ⟨r.1, r.2.1, [], zone0 ++ r.2.1.map (createdRecord ext cfg), false⟩
  else ⟨[], [], [], zone0, false⟩

/-! ## String-level helper lemmas -/

theorem data_append (a b : String) : (a ++ b).data = a.data ++ b.data := by
  cases a
  cases b
  rfl

theorem toNat_ofNat_of_valid {n : Nat} (h : n.isValidChar) : (Char.ofNat n).toNat = n := by
  rw [Char.ofNat, dif_pos h]
  rfl

theorem charToLower_idem (c : Char) : c.toLower.toLower = c.toLower := by
  unfold Char.toLower
  by_cases h : c.toNat ≥ 65 ∧ c.toNat ≤ 90
  · rw [if_pos h]
    have hv : (c.toNat + 32).isValidChar := Or.inl (by omega)
    have ht : (Char.ofNat (c.toNat + 32)).toNat = c.toNat + 32 := toNat_ofNat_of_valid hv
    rw [if_neg]
    rw [ht]
    omega
  · rw [if_neg h, if_neg h]

theorem pyLower_append (a b : String) : pyLower (a ++ b) = pyLower a ++ pyLower b := by
  cases a with
  | mk la =>
    cases b with
    | mk lb =>
      show String.mk ((la ++ lb).map Char.toLower) = String.mk (la.map Char.toLower) ++ String.mk (lb.map Char.toLower)
      rw [List.map_append]
      rfl

theorem pyLower_idem (s : String) : pyLower (pyLower s) = pyLower s := by
  cases s with
  | mk l =>
    show String.mk ((l.map Char.toLower).map Char.toLower) = String.mk (l.map Char.toLower)
    rw [List.map_map]
    congr 1
    apply List.map_congr_left
    intro c _
    exact charToLower_idem c

theorem pyEndsWith_append (a b : String) : pyEndsWith (a ++ b) b = true := by
  have h : b.data <:+ (a ++ b).data := by
    rw [data_append]
    exact List.suffix_append a.data b.data
  simp only [pyEndsWith, List.isSuffixOf_iff_suffix]
  exact h

theorem append_cons_underscore_inj :
    ∀ (a : List Char) {b c d : List Char}, '_' ∉ b → '_' ∉ d →
      a ++ '_' :: b = c ++ '_' :: d → a = c ∧ b = d := by
  intro a
  induction a with
  | nil =>
    intro b c d hb hd h
    cases c with
    | nil =>
      simp at h
      exact ⟨rfl, h⟩
    | cons c0 cs =>
      simp at h
      obtain ⟨h1, h2⟩ := h
      exfalso
      apply hb
      rw [h2]
      exact List.mem_append_right cs (List.mem_cons_self '_' d)
  | cons a0 as ih =>
    intro b c d hb hd h
    cases c with
    | nil =>
      simp at h
      obtain ⟨h1, h2⟩ := h
      exfalso
      apply hd
      rw [← h2]
      exact List.mem_append_right as (List.mem_cons_self '_' b)
    | cons c0 cs =>
      simp at h
      obtain ⟨h1, h2⟩ := h
      obtain ⟨h3, h4⟩ := ih hb hd h2
      exact ⟨by rw [h1, h3], h4⟩

theorem string_ext {a b : String} (h : a.data = b.data) : a = b := by
  cases a
  cases b
  exact congrArg String.mk h

theorem key_inj {a b c d : String} (hb : '_' ∉ b.data) (hd : '_' ∉ d.data)
    (h : a ++ "_" ++ b = c ++ "_" ++ d) : a = c ∧ b = d := by
  have hdata : a.data ++ '_' :: b.data = c.data ++ '_' :: d.data := by
    have := congrArg String.data h
    rw [data_append, data_append, data_append, data_append] at this
    simpa using this
  obtain ⟨h1, h2⟩ := append_cons_underscore_inj a.data hb hd hdata
  exact ⟨string_ext h1, string_ext h2⟩

/-! ## Desired-set (Python dict) lemmas -/

theorem mem_insertKey {m : List (String × DesiredRecord)} {k : String} {v : DesiredRecord}
    {p : String × DesiredRecord} (hp : p ∈ insertKey m k v) : p ∈ m ∨ p = (k, v) := by
  induction m with
  | nil =>
    simp [insertKey] at hp
    exact Or.inr hp
  | cons q rest ih =>
    obtain ⟨k', v'⟩ := q
    rw [insertKey] at hp
    by_cases hk : k' = k
    · rw [if_pos hk] at hp
      rcases List.mem_cons.mp hp with h | h
      · exact Or.inr (by rw [h, hk])
      · exact Or.inl (List.mem_cons_of_mem _ h)
    · rw [if_neg hk] at hp
      rcases List.mem_cons.mp hp with h | h
      · exact Or.inl (by rw [h]; exact List.mem_cons_self _ _)
      · rcases ih h with h' | h'
        · exact Or.inl (List.mem_cons_of_mem _ h')
        · exact Or.inr h'

theorem self_mem_insertKey (m : List (String × DesiredRecord)) (k : String) (v : DesiredRecord) :
    (k, v) ∈ insertKey m k v := by
  induction m with
  | nil => simp [insertKey]
  | cons q rest ih =>
    obtain ⟨k', v'⟩ := q
    rw [insertKey]
    by_cases hk : k' = k
    · rw [if_pos hk, hk]
      exact List.mem_cons_self _ _
    · rw [if_neg hk]
      exact List.mem_cons_of_mem _ ih

theorem key_mem_insertKey {m : List (String × DesiredRecord)} {k0 : String}
    (h : ∃ v0, (k0, v0) ∈ m) (k : String) (v : DesiredRecord) :
    ∃ v1, (k0, v1) ∈ insertKey m k v := by
  by_cases hk : k = k0
  · subst hk
    exact ⟨v, self_mem_insertKey m k v⟩
  · obtain ⟨v0, hv0⟩ := h
    induction m with
    | nil => simp at hv0
    | cons q rest ih =>
      obtain ⟨k', v'⟩ := q
      rw [insertKey]
      rcases List.mem_cons.mp hv0 with h0 | h0
      · have hk0 : k0 = k' := congrArg Prod.fst h0
        have hne : ¬ k' = k := by
          rw [← hk0]
          intro hh
          exact hk hh.symm
        rw [if_neg hne]
        exact ⟨v', by rw [hk0]; exact List.mem_cons_self _ _⟩
      · by_cases hk' : k' = k
        · rw [if_pos hk']
          exact ⟨v0, List.mem_cons_of_mem _ h0⟩
        · rw [if_neg hk']
          obtain ⟨v1, hv1⟩ := ih h0
          exact ⟨v1, List.mem_cons_of_mem _ hv1⟩

theorem mem_foldl_insert (ext : Externals) (cfg : SyncConfig) :
    ∀ (devs : List MeshDevice) (m : List (String × DesiredRecord)) (p : String × DesiredRecord),
      p ∈ devs.foldl (fun m d => insertKey m (keyOf ext cfg d) (desiredOf ext cfg d)) m →
      p ∈ m ∨ ∃ dev, dev ∈ devs ∧ p = (keyOf ext cfg dev, desiredOf ext cfg dev) := by
  intro devs
  induction devs with
  | nil =>
    intro m p hp
    exact Or.inl hp
  | cons d devs ih =>
    intro m p hp
    rw [List.foldl_cons] at hp
    rcases ih _ p hp with h | ⟨dev, hdev, hpd⟩
    · rcases mem_insertKey h with h' | h'
      · exact Or.inl h'
      · exact Or.inr ⟨d, List.mem_cons_self _ _, h'⟩
    · exact Or.inr ⟨dev, List.mem_cons_of_mem _ hdev, hpd⟩

theorem mem_current_ts {ext : Externals} {cfg : SyncConfig} {devs : List MeshDevice}
    {p : String × DesiredRecord} (hp : p ∈ current_ts_fqdns_ips ext cfg devs) :
    ∃ dev, dev ∈ devs ∧ p = (keyOf ext cfg dev, desiredOf ext cfg dev) := by
  rcases mem_foldl_insert ext cfg devs [] p hp with h | h
  · simp at h
  · exact h

theorem key_mem_foldl_insert (ext : Externals) (cfg : SyncConfig) :
    ∀ (devs : List MeshDevice) (m : List (String × DesiredRecord)) (k0 : String),
      (∃ v0, (k0, v0) ∈ m) →
      ∃ v1, (k0, v1) ∈ devs.foldl (fun m d => insertKey m (keyOf ext cfg d) (desiredOf ext cfg d)) m := by
  intro devs
  induction devs with
  | nil =>
    intro m k0 h
    exact h
  | cons d devs ih =>
    intro m k0 h
    rw [List.foldl_cons]
    exact ih _ k0 (key_mem_insertKey h _ _)

theorem key_mem_foldl_of_dev (ext : Externals) (cfg : SyncConfig) :
    ∀ (devs : List MeshDevice) (m : List (String × DesiredRecord)) (dev : MeshDevice),
      dev ∈ devs →
      ∃ v, (keyOf ext cfg dev, v) ∈ devs.foldl (fun m d => insertKey m (keyOf ext cfg d) (desiredOf ext cfg d)) m := by
  intro devs
  induction devs with
  | nil =>
    intro m dev hdev
    simp at hdev
  | cons d devs ih =>
    intro m dev hdev
    rw [List.foldl_cons]
    rcases List.mem_cons.mp hdev with h | h
    · rw [h]
      exact key_mem_foldl_insert ext cfg devs _ _ ⟨_, self_mem_insertKey m _ _⟩
    · exact ih _ dev h

theorem key_mem_current_ts {ext : Externals} {cfg : SyncConfig} {devs : List MeshDevice}
    {dev : MeshDevice} (hdev : dev ∈ devs) :
    ∃ v, (keyOf ext cfg dev, v) ∈ current_ts_fqdns_ips ext cfg devs :=
  key_mem_foldl_of_dev ext cfg devs [] dev hdev

/-! ## Creation-phase lemmas -/

theorem isMatched_iff {zone : List ZoneRecord} {d : DesiredRecord} :
    isMatched zone d = true ↔ ∃ r, r ∈ zone ∧ pyLower r.name = d.fqdn ∧ r.content = d.address := by
  simp [isMatched, List.any_eq_true, Bool.and_eq_true, beq_iff_eq]

theorem createClassOf_upToDate_iff {ext : Externals} {zone : List ZoneRecord} {d : DesiredRecord} :
    createClassOf ext zone d = some CreateClass.upToDate ↔ isMatched zone d = true := by
  constructor
  · intro h
    by_cases hm : isMatched zone d = true
    · exact hm
    · rw [createClassOf, if_neg hm] at h
      cases hv : ext.ipVersion d.address with
      | none =>
        rw [hv] at h
        simp at h
      | some v =>
        rw [hv] at h
        by_cases hval : ext.isValidDNSRecord d.original_hostname = true
        · rw [if_pos hval] at h
          simp at h
        · rw [if_neg hval] at h
          simp at h
  · intro h
    rw [createClassOf, if_pos h]

theorem createClassOf_adding_elim {ext : Externals} {zone : List ZoneRecord} {d : DesiredRecord}
    (h : createClassOf ext zone d = some CreateClass.adding) :
    isMatched zone d = false ∧ ext.isValidDNSRecord d.original_hostname = true ∧
      ∃ v, ext.ipVersion d.address = some v := by
  by_cases hm : isMatched zone d = true
  · rw [createClassOf, if_pos hm] at h
    simp at h
  · rw [createClassOf, if_neg hm] at h
    refine ⟨Bool.eq_false_iff.mpr hm, ?_⟩
    cases hv : ext.ipVersion d.address with
    | none =>
      rw [hv] at h
      simp at h
    | some v =>
      rw [hv] at h
      by_cases hval : ext.isValidDNSRecord d.original_hostname = true
      · exact ⟨hval, v, rfl⟩
      · rw [if_neg hval] at h
        simp at h

theorem createClassOf_not_matched_valid {ext : Externals} {zone : List ZoneRecord} {d : DesiredRecord}
    {v : Nat} (hm : ¬ isMatched zone d = true) (hval : ext.isValidDNSRecord d.original_hostname = true)
    (hv : ext.ipVersion d.address = some v) :
    createClassOf ext zone d = some CreateClass.adding := by
  rw [createClassOf, if_neg hm, hv, if_pos hval]

theorem runCreation_cons_none {ext : Externals} {cfg : SyncConfig} {zone : List ZoneRecord}
    {k : String} {d : DesiredRecord} {rest : List (String × DesiredRecord)}
    (h : createClassOf ext zone d = none) :
    runCreation ext cfg zone ((k, d) :: rest) = ([], [], false) := by
  rw [runCreation, h]

theorem runCreation_cons_some {ext : Externals} {cfg : SyncConfig} {zone : List ZoneRecord}
    {k : String} {d : DesiredRecord} {rest : List (String × DesiredRecord)} {cl : CreateClass}
    (h : createClassOf ext zone d = some cl) :
    runCreation ext cfg zone ((k, d) :: rest) =
      (cl :: (runCreation ext cfg zone rest).1,
       (if cl = CreateClass.adding then [mkCall cfg d ((ext.ipVersion d.address).getD 4)] else []) ++
         (runCreation ext cfg zone rest).2.1,
       (runCreation ext cfg zone rest).2.2) := by
  rw [runCreation, h]

theorem runCreation_all_matched {ext : Externals} {cfg : SyncConfig} {zone : List ZoneRecord} :
    ∀ {items : List (String × DesiredRecord)},
      (∀ p ∈ items, isMatched zone p.2 = true) →
      runCreation ext cfg zone items = (items.map (fun _ => CreateClass.upToDate), [], true) := by
  intro items
  induction items with
  | nil => intro _; rfl
  | cons q rest ih =>
    intro h
    obtain ⟨k, d⟩ := q
    have hd : isMatched zone d = true := h (k, d) (List.mem_cons_self _ _)
    have hrest := ih (fun p hp => h p (List.mem_cons_of_mem _ hp))
    rw [runCreation_cons_some (createClassOf_upToDate_iff.mpr hd), hrest]
    simp

theorem createClassOf_isSome {ext : Externals} (zone : List ZoneRecord) {d : DesiredRecord}
    (hd : (ext.ipVersion d.address).isSome = true) :
    ∃ cl, createClassOf ext zone d = some cl := by
  rw [createClassOf]
  by_cases hm : isMatched zone d = true
  · exact ⟨CreateClass.upToDate, by rw [if_pos hm]⟩
  · rw [if_neg hm]
    cases hv : ext.ipVersion d.address with
    | none =>
      rw [hv] at hd
      simp at hd
    | some v =>
      by_cases hval : ext.isValidDNSRecord d.original_hostname = true
      · exact ⟨CreateClass.adding, by rw [if_pos hval]⟩
      · exact ⟨CreateClass.skipInvalid, by rw [if_neg hval]⟩

theorem runCreation_ok {ext : Externals} {cfg : SyncConfig} {zone : List ZoneRecord} :
    ∀ {items : List (String × DesiredRecord)},
      (∀ p ∈ items, (ext.ipVersion p.2.address).isSome = true) →
      (runCreation ext cfg zone items).2.2 = true := by
  intro items
  induction items with
  | nil => intro _; rfl
  | cons q rest ih =>
    intro h
    obtain ⟨k, d⟩ := q
    have hrest := ih (fun p hp => h p (List.mem_cons_of_mem _ hp))
    obtain ⟨cl, hcl⟩ := createClassOf_isSome zone (h (k, d) (List.mem_cons_self _ _))
    rw [runCreation_cons_some hcl]
    exact hrest

theorem runCreation_classOf_ne_none {ext : Externals} {cfg : SyncConfig} {zone : List ZoneRecord} :
    ∀ {items : List (String × DesiredRecord)} {k : String} {d : DesiredRecord},
      (runCreation ext cfg zone items).2.2 = true → (k, d) ∈ items →
      createClassOf ext zone d ≠ none := by
  intro items
  induction items with
  | nil =>
    intro k d _ hmem
    simp at hmem
  | cons q rest ih =>
    intro k d hok hmem
    obtain ⟨k', d'⟩ := q
    cases hcl : createClassOf ext zone d' with
    | none =>
      rw [runCreation_cons_none hcl] at hok
      simp at hok
    | some cl =>
      rw [runCreation_cons_some hcl] at hok
      rcases List.mem_cons.mp hmem with h | h
      · have hd : d = d' := congrArg Prod.snd h
        rw [hd, hcl]
        simp
      · exact ih hok h

theorem runCreation_call_of_adding {ext : Externals} {cfg : SyncConfig} {zone : List ZoneRecord} :
    ∀ {items : List (String × DesiredRecord)} {k : String} {d : DesiredRecord} {v : Nat},
      (runCreation ext cfg zone items).2.2 = true → (k, d) ∈ items →
      createClassOf ext zone d = some CreateClass.adding → ext.ipVersion d.address = some v →
      mkCall cfg d v ∈ (runCreation ext cfg zone items).2.1 := by
  intro items
  induction items with
  | nil =>
    intro k d v _ hmem
    simp at hmem
  | cons q rest ih =>
    intro k d v hok hmem hcl hv
    obtain ⟨k', d'⟩ := q
    cases hcl' : createClassOf ext zone d' with
    | none =>
      rw [runCreation_cons_none hcl'] at hok
      simp at hok
    | some cl =>
      rw [runCreation_cons_some hcl'] at hok ⊢
      rcases List.mem_cons.mp hmem with h | h
      · have hd : d = d' := congrArg Prod.snd h
        subst hd
        rw [hcl'] at hcl
        have hcl2 : cl = CreateClass.adding := by
          have h2 := hcl.symm
          simp only [Option.some.injEq] at h2
          exact h2.symm
        rw [if_pos hcl2, hv]
        exact List.mem_append_left _ (List.mem_singleton.mpr rfl)
      · exact List.mem_append_right _ (ih hok h hcl hv)

theorem runCreation_calls_src {ext : Externals} {cfg : SyncConfig} {zone : List ZoneRecord} :
    ∀ {items : List (String × DesiredRecord)} {c : CreateCall},
      c ∈ (runCreation ext cfg zone items).2.1 →
      ∃ k d, (k, d) ∈ items ∧ ext.isValidDNSRecord d.original_hostname = true ∧
        ∃ v, ext.ipVersion d.address = some v ∧ c = mkCall cfg d v := by
  intro items
  induction items with
  | nil =>
    intro c hc
    simp [runCreation] at hc
  | cons q rest ih =>
    intro c hc
    obtain ⟨k', d'⟩ := q
    cases hcl : createClassOf ext zone d' with
    | none =>
      rw [runCreation_cons_none hcl] at hc
      simp at hc
    | some cl =>
      rw [runCreation_cons_some hcl] at hc
      rcases List.mem_append.mp hc with h | h
      · by_cases hadd : cl = CreateClass.adding
        · rw [if_pos hadd] at h
          have hc' : c = mkCall cfg d' ((ext.ipVersion d'.address).getD 4) := List.mem_singleton.mp h
          rw [hadd] at hcl
          obtain ⟨hm, hval, v, hv⟩ := createClassOf_adding_elim hcl
          refine ⟨k', d', List.mem_cons_self _ _, hval, v, hv, ?_⟩
          rw [hc', hv]
          rfl
        · rw [if_neg hadd] at h
          simp at h
      · obtain ⟨k0, d0, hmem, hval, v, hv, hc'⟩ := ih h
        exact ⟨k0, d0, List.mem_cons_of_mem _ hmem, hval, v, hv, hc'⟩

theorem runCreation_satisfies {ext : Externals} {cfg : SyncConfig} {zone : List ZoneRecord}
    {items : List (String × DesiredRecord)} {k : String} {d : DesiredRecord}
    (hok : (runCreation ext cfg zone items).2.2 = true)
    (hval : ext.isValidDNSRecord d.original_hostname = true)
    (hmem : (k, d) ∈ items) :
    isMatched zone d = true ∨
      ∃ v, ext.ipVersion d.address = some v ∧ mkCall cfg d v ∈ (runCreation ext cfg zone items).2.1 := by
  by_cases hm : isMatched zone d = true
  · exact Or.inl hm
  · right
    have hne := runCreation_classOf_ne_none hok hmem
    rw [createClassOf, if_neg hm] at hne
    cases hv : ext.ipVersion d.address with
    | none =>
      rw [hv] at hne
      simp at hne
    | some v =>
      have hcl : createClassOf ext zone d = some CreateClass.adding :=
        createClassOf_not_matched_valid hm hval hv
      exact ⟨v, rfl, runCreation_call_of_adding hok hmem hcl hv⟩

theorem createdRecord_mkCall (ext : Externals) (cfg : SyncConfig) (dev : MeshDevice) (v : Nat) :
    createdRecord ext cfg (mkCall cfg (desiredOf ext cfg dev) v) =
      ⟨"created", fqdnOf ext cfg dev.hostname, dev.address⟩ := rfl

/-! ## Cleanup-phase lemmas -/

theorem cleanupClassify_deleteStale_iff {ext : Externals} {cfg : SyncConfig}
    {desired : List (String × DesiredRecord)} {r : ZoneRecord} :
    cleanupClassify ext cfg desired r = CleanupClass.deleteStale ↔
      (desired.any (fun p => p.1 == pyLower r.name ++ "_" ++ r.content) = false ∧
       pyEndsWith (pyLower r.name) (managedSuffix cfg) = true ∧
       ext.isTailscaleIP r.content = true) := by
  rw [cleanupClassify]
  by_cases h1 : desired.any (fun p => p.1 == pyLower r.name ++ "_" ++ r.content) = true
  · rw [if_pos h1]
    simp [h1]
  · rw [if_neg h1]
    by_cases h2 : pyEndsWith (pyLower r.name) (managedSuffix cfg) = true
    · rw [h2]
      simp only [Bool.not_true, if_false]
      by_cases h3 : ext.isTailscaleIP r.content = true
      · rw [h3]
        simp [Bool.eq_false_iff.mpr h1, h2, h3]
      · rw [Bool.eq_false_iff.mpr h3]
        simp [Bool.eq_false_iff.mpr h1, h2, Bool.eq_false_iff.mpr h3]
    · rw [Bool.eq_false_iff.mpr h2]
      simp [Bool.eq_false_iff.mpr h1, Bool.eq_false_iff.mpr h2]

theorem cleanupClassify_currentRec_iff {ext : Externals} {cfg : SyncConfig}
    {desired : List (String × DesiredRecord)} {r : ZoneRecord} :
    cleanupClassify ext cfg desired r = CleanupClass.currentRec ↔
      desired.any (fun p => p.1 == pyLower r.name ++ "_" ++ r.content) = true := by
  rw [cleanupClassify]
  by_cases h1 : desired.any (fun p => p.1 == pyLower r.name ++ "_" ++ r.content) = true
  · rw [if_pos h1]
    simp [h1]
  · rw [if_neg h1]
    by_cases h2 : pyEndsWith (pyLower r.name) (managedSuffix cfg) = true
    · rw [h2]
      simp only [Bool.not_true, if_false]
      by_cases h3 : ext.isTailscaleIP r.content = true
      · rw [h3]
        simp [Bool.eq_false_iff.mpr h1]
      · rw [Bool.eq_false_iff.mpr h3]
        simp [Bool.eq_false_iff.mpr h1]
    · rw [Bool.eq_false_iff.mpr h2]
      simp [Bool.eq_false_iff.mpr h1]

/-! ## Cycle-level lemmas -/

theorem perform_sync_cycle_eq_of_ok {ext : Externals} {cfg : SyncConfig}
    {inventory : List MeshDevice} {zone0 : List ZoneRecord}
    (hmode : cfg.mode = "tailscale" ∨ cfg.mode = "headscale")
    (hok : (runCreation ext cfg zone0 (current_ts_fqdns_ips ext cfg inventory)).2.2 = true) :
    perform_sync_cycle ext cfg inventory zone0 =
      ⟨(runCreation ext cfg zone0 (current_ts_fqdns_ips ext cfg inventory)).1,
       (runCreation ext cfg zone0 (current_ts_fqdns_ips ext cfg inventory)).2.1,
       (zone0 ++ (runCreation ext cfg zone0 (current_ts_fqdns_ips ext cfg inventory)).2.1.map (createdRecord ext cfg)).filter
         (fun z => cleanupClassify ext cfg (current_ts_fqdns_ips ext cfg inventory) z == CleanupClass.deleteStale),
       (zone0 ++ (runCreation ext cfg zone0 (current_ts_fqdns_ips ext cfg inventory)).2.1.map (createdRecord ext cfg)).filter
         (fun z => !(cleanupClassify ext cfg (current_ts_fqdns_ips ext cfg inventory) z == CleanupClass.deleteStale)),
       true⟩ := by
  unfold perform_sync_cycle
  rw [if_pos hmode]
  simp only [hok, if_true]

theorem mem_deleteCalls {ext : Externals} {cfg : SyncConfig} {inventory : List MeshDevice}
    {zone0 : List ZoneRecord} {r : ZoneRecord}
    (hr : r ∈ (perform_sync_cycle ext cfg inventory zone0).deleteCalls) :
    cleanupClassify ext cfg (current_ts_fqdns_ips ext cfg inventory) r = CleanupClass.deleteStale := by
  unfold perform_sync_cycle at hr
  by_cases hmode : cfg.mode = "tailscale" ∨ cfg.mode = "headscale"
  · rw [if_pos hmode] at hr
    simp only at hr
    by_cases hok : (runCreation ext cfg zone0 (current_ts_fqdns_ips ext cfg inventory)).2.2 = true
    · simp only [hok, if_true] at hr
      have := (List.mem_filter.mp hr).2
      exact beq_iff_eq.mp this
    · rw [if_neg hok] at hr
      simp at hr
  · rw [if_neg hmode] at hr
    simp at hr

theorem mem_createCalls {ext : Externals} {cfg : SyncConfig} {inventory : List MeshDevice}
    {zone0 : List ZoneRecord} {c : CreateCall}
    (hc : c ∈ (perform_sync_cycle ext cfg inventory zone0).createCalls) :
    c ∈ (runCreation ext cfg zone0 (current_ts_fqdns_ips ext cfg inventory)).2.1 := by
  unfold perform_sync_cycle at hc
  by_cases hmode : cfg.mode = "tailscale" ∨ cfg.mode = "headscale"
  · rw [if_pos hmode] at hc
    simp only at hc
    by_cases hok : (runCreation ext cfg zone0 (current_ts_fqdns_ips ext cfg inventory)).2.2 = true
    · simp only [hok, if_true] at hc
      exact hc
    · rw [if_neg hok] at hc
      exact hc
  · rw [if_neg hmode] at hc
    simp at hc

/-! ## Concrete fixtures used by witnesses and counterexamples -/

/-- Identity transform, everything valid, everything a mesh address, IPv4. -/
def extId : Externals := ⟨fun s => s, fun _ => true, fun _ => true, fun _ => some 4⟩

/-- Tailscale mode, domain `example.com`, no subdomain. -/
def cfgTs : SyncConfig := ⟨"tailscale", "example.com", none⟩

/-- Identity transform, everything valid, nothing a mesh address, IPv4. -/
def extNonMesh : Externals := ⟨fun s => s, fun _ => true, fun _ => false, fun _ => some 4⟩

/-- Identity transform, validity accepting exactly the full string `"a.b"`. -/
def extFullHost : Externals := ⟨fun s => s, fun s => s == "a.b", fun _ => true, fun _ => some 4⟩

/-! ## Claim theorems -/

/-- C9: for any configuration whose mode is neither `"tailscale"` nor
`"headscale"`, `perform_sync_cycle` aborts before the diff phases: no create
call, no delete call, the zone untouched, for any inventory and zone. -/
theorem c9_invalid_mode (ext : Externals) (cfg : SyncConfig)
    (inventory : List MeshDevice) (zone0 : List ZoneRecord)
    (h1 : cfg.mode ≠ "tailscale") (h2 : cfg.mode ≠ "headscale") :
    perform_sync_cycle ext cfg inventory zone0 = ⟨[], [], [], zone0, false⟩ := by
  have h : ¬(cfg.mode = "tailscale" ∨ cfg.mode = "headscale") := by
    intro h
    rcases h with h | h
    exacts [h1 h, h2 h]
  unfold perform_sync_cycle
  rw [if_neg h]

/-- C9 witness: mode `"foo"` issues nothing and aborts. -/
theorem c9_invalid_mode_witness :
    perform_sync_cycle extId ⟨"foo", "example.com", none⟩ [⟨"laptop", "100.64.0.1"⟩]
        [⟨"1", "x.example.com", "100.64.0.9"⟩] =
      ⟨[], [], [], [⟨"1", "x.example.com", "100.64.0.9"⟩], false⟩ :=
  c9_invalid_mode extId ⟨"foo", "example.com", none⟩ _ _ (by decide) (by decide)

/-- C2: scope safety — every record in the cycle's delete calls has a
lowercased name ending with the managed suffix; equivalently, a zone record
whose lowercased name does not end with the managed suffix is never
classified stale by the cleanup loop, for any desired set. -/
theorem c2_scope_safety (ext : Externals) (cfg : SyncConfig) :
    (∀ (inventory : List MeshDevice) (zone0 : List ZoneRecord) (r : ZoneRecord),
       r ∈ (perform_sync_cycle ext cfg inventory zone0).deleteCalls →
       pyEndsWith (pyLower r.name) (managedSuffix cfg) = true) ∧
    (∀ (desired : List (String × DesiredRecord)) (r : ZoneRecord),
       pyEndsWith (pyLower r.name) (managedSuffix cfg) = false →
       cleanupClassify ext cfg desired r ≠ CleanupClass.deleteStale) := by
  constructor
  · intro inventory zone0 r hr
    exact (cleanupClassify_deleteStale_iff.mp (mem_deleteCalls hr)).2.1
  · intro desired r hend hstale
    have := (cleanupClassify_deleteStale_iff.mp hstale).2.1
    rw [hend] at this
    exact Bool.false_ne_true this

/-- C2 witness: a record under a foreign domain is not classified stale even
when absent from the desired set and holding a mesh address. -/
theorem c2_scope_safety_witness :
    pyEndsWith (pyLower "printer.other.com") (managedSuffix cfgTs) = false ∧
    cleanupClassify extId cfgTs [] ⟨"1", "printer.other.com", "100.64.0.1"⟩ ≠ CleanupClass.deleteStale :=
  ⟨by decide, (c2_scope_safety extId cfgTs).2 [] ⟨"1", "printer.other.com", "100.64.0.1"⟩ (by decide)⟩

/-- C3 counterexample: a zone record inside the managed suffix whose content
fails the mesh-address predicate but whose name+content key is present in
the DesiredSet is classified current (skipped at the key test), not
SKIP-DELETE-NON-MESH-IP, contradicting the claim's classification clause. -/
theorem c3_nonmesh_counterexample :
    pyEndsWith (pyLower "printer.example.com") (managedSuffix cfgTs) = true ∧
    extNonMesh.isTailscaleIP "1.2.3.4" = false ∧
    cleanupClassify extNonMesh cfgTs (current_ts_fqdns_ips extNonMesh cfgTs [⟨"printer", "1.2.3.4"⟩])
        ⟨"1", "printer.example.com", "1.2.3.4"⟩ = CleanupClass.currentRec ∧
    CleanupClass.currentRec ≠ CleanupClass.nonMeshIP := by
  decide

/-- C3 amended: a zone record whose content fails the mesh-address predicate
is never deleted by the cleanup phase; and when additionally its
lowercased-name+content key is absent from the DesiredSet and its lowercased
name ends with the managed suffix, it is classified SKIP-DELETE-NON-MESH-IP. -/
theorem c3_nonmesh_amended (ext : Externals) (cfg : SyncConfig) :
    (∀ (inventory : List MeshDevice) (zone0 : List ZoneRecord) (r : ZoneRecord),
       r ∈ (perform_sync_cycle ext cfg inventory zone0).deleteCalls →
       ext.isTailscaleIP r.content = true) ∧
    (∀ (desired : List (String × DesiredRecord)) (r : ZoneRecord),
       ext.isTailscaleIP r.content = false →
       cleanupClassify ext cfg desired r ≠ CleanupClass.deleteStale ∧
       (desired.any (fun p => p.1 == pyLower r.name ++ "_" ++ r.content) = false →
        pyEndsWith (pyLower r.name) (managedSuffix cfg) = true →
        cleanupClassify ext cfg desired r = CleanupClass.nonMeshIP)) := by
  constructor
  · intro inventory zone0 r hr
    exact (cleanupClassify_deleteStale_iff.mp (mem_deleteCalls hr)).2.2
  · intro desired r hmesh
    constructor
    · intro hstale
      have := (cleanupClassify_deleteStale_iff.mp hstale).2.2
      rw [hmesh] at this
      exact Bool.false_ne_true this
    · intro hkey hend
      rw [cleanupClassify, if_neg (by rw [hkey]; exact Bool.false_ne_true), hend]
      simp only [Bool.not_true, if_false]
      rw [hmesh]
      rfl

/-- C3 amended witness: an in-suffix non-mesh record absent from the desired
set is classified SKIP-DELETE-NON-MESH-IP and not stale. -/
theorem c3_nonmesh_amended_witness :
    cleanupClassify extNonMesh cfgTs [] ⟨"1", "printer.example.com", "203.0.113.5"⟩ ≠ CleanupClass.deleteStale ∧
    cleanupClassify extNonMesh cfgTs [] ⟨"1", "printer.example.com", "203.0.113.5"⟩ = CleanupClass.nonMeshIP :=
  ⟨((c3_nonmesh_amended extNonMesh cfgTs).2 [] ⟨"1", "printer.example.com", "203.0.113.5"⟩ (by decide)).1,
   ((c3_nonmesh_amended extNonMesh cfgTs).2 [] ⟨"1", "printer.example.com", "203.0.113.5"⟩ (by decide)).2
     (by decide) (by decide)⟩

/-- C4 counterexample: the code passes the FULL untransformed hostname to the
validity predicate (app.py line 79), not its first dot-delimited label: with
a predicate accepting `"a.b"` but rejecting `"a"`, the device
`{hostname: "a.b"}` has an invalid first label yet a create call is issued. -/
theorem c4_validity_counterexample :
    extFullHost.isValidDNSRecord (pyLower (firstLabel "a.b")) = false ∧
    (perform_sync_cycle extFullHost cfgTs [⟨"a.b", "100.64.0.1"⟩] []).createCalls ≠ [] := by
  decide

/-- C4 amended: every create call issued by a cycle arises from a desired
record whose FULL untransformed hostname (app.py's `original_hostname`)
passes the hostname-validity predicate and whose address parses; hence a
device whose full hostname fails the predicate contributes no create call. -/
theorem c4_validity_amended (ext : Externals) (cfg : SyncConfig)
    (inventory : List MeshDevice) (zone0 : List ZoneRecord) :
    ∀ c ∈ (perform_sync_cycle ext cfg inventory zone0).createCalls,
      ∃ k d, (k, d) ∈ current_ts_fqdns_ips ext cfg inventory ∧
        ext.isValidDNSRecord d.original_hostname = true ∧
        ∃ v, ext.ipVersion d.address = some v ∧ c = mkCall cfg d v := by
  intro c hc
  exact runCreation_calls_src (mem_createCalls hc)

/-- C4 amended witness: the single call of a one-device cycle arises from the
desired record of that device, whose hostname passes the predicate. -/
theorem c4_validity_amended_witness :
    ∃ k d, (k, d) ∈ current_ts_fqdns_ips extId cfgTs [⟨"laptop", "100.64.0.1"⟩] ∧
      extId.isValidDNSRecord d.original_hostname = true ∧
      ∃ v, extId.ipVersion d.address = some v ∧
        (⟨"laptop", "A", "100.64.0.1", none⟩ : CreateCall) = mkCall cfgTs d v :=
  c4_validity_amended extId cfgTs [⟨"laptop", "100.64.0.1"⟩] [] ⟨"laptop", "A", "100.64.0.1", none⟩
    (by decide)

/-- C5: a desired record is classified UP-TO-DATE iff some zone record
matches it on lowercased name AND content simultaneously; under the data
model (the address is an IP, so it parses) every desired record is
classified into exactly one of UP-TO-DATE, ADDING, SKIPPING-INVALID-HOSTNAME;
and an UP-TO-DATE record contributes no create call to the loop. -/
theorem c5_matching_rule (ext : Externals) (zone : List ZoneRecord) (d : DesiredRecord) :
    (createClassOf ext zone d = some CreateClass.upToDate ↔
       ∃ r, r ∈ zone ∧ pyLower r.name = d.fqdn ∧ r.content = d.address) ∧
    ((ext.ipVersion d.address).isSome = true →
       createClassOf ext zone d = some CreateClass.upToDate ∨
       createClassOf ext zone d = some CreateClass.adding ∨
       createClassOf ext zone d = some CreateClass.skipInvalid) ∧
    (∀ (cfg : SyncConfig) (k : String) (rest : List (String × DesiredRecord)),
       createClassOf ext zone d = some CreateClass.upToDate →
       (runCreation ext cfg zone ((k, d) :: rest)).2.1 = (runCreation ext cfg zone rest).2.1) := by
  refine ⟨createClassOf_upToDate_iff.trans isMatched_iff, ?_, ?_⟩
  · intro hv
    obtain ⟨cl, hcl⟩ := createClassOf_isSome zone hv
    cases cl with
    | upToDate => exact Or.inl hcl
    | adding => exact Or.inr (Or.inl hcl)
    | skipInvalid => exact Or.inr (Or.inr hcl)
  · intro cfg k rest hcl
    rw [runCreation_cons_some hcl]
    simp

/-- C5 witness: a record matching on both name (case-insensitively) and
content is UP-TO-DATE, and the trichotomy holds at a parsing address. -/
theorem c5_matching_rule_witness :
    createClassOf extId [⟨"1", "LapTop.Example.Com", "100.64.0.1"⟩]
        ⟨"laptop.example.com", "100.64.0.1", "laptop"⟩ = some CreateClass.upToDate ∧
    (createClassOf extId [] ⟨"laptop.example.com", "100.64.0.1", "laptop"⟩ = some CreateClass.upToDate ∨
     createClassOf extId [] ⟨"laptop.example.com", "100.64.0.1", "laptop"⟩ = some CreateClass.adding ∨
     createClassOf extId [] ⟨"laptop.example.com", "100.64.0.1", "laptop"⟩ = some CreateClass.skipInvalid) :=
  ⟨(c5_matching_rule extId [⟨"1", "LapTop.Example.Com", "100.64.0.1"⟩]
      ⟨"laptop.example.com", "100.64.0.1", "laptop"⟩).1.mpr (by decide),
   (c5_matching_rule extId [] ⟨"laptop.example.com", "100.64.0.1", "laptop"⟩).2.1 (by decide)⟩

/-- C10: the cleanup currency test is exact string equality via key lookup —
a record is classified current iff its lowercased-name+content key literally
occurs in the DesiredSet; consequently a record whose content is not
string-equal to the address of any desired pair at its name (regardless of
whether it denotes the same IP in another textual form) is classified stale,
and so deleted, whenever its name ends with the managed suffix and its
content passes the mesh-address predicate. -/
theorem c10_exact_key_currency (ext : Externals) (cfg : SyncConfig) :
    (∀ (desired : List (String × DesiredRecord)) (r : ZoneRecord),
       cleanupClassify ext cfg desired r = CleanupClass.currentRec ↔
       desired.any (fun p => p.1 == pyLower r.name ++ "_" ++ r.content) = true) ∧
    (∀ (inventory : List MeshDevice) (r : ZoneRecord),
       (∀ dev ∈ inventory, '_' ∉ dev.address.data) → '_' ∉ r.content.data →
       (¬ ∃ p, p ∈ current_ts_fqdns_ips ext cfg inventory ∧
          p.2.fqdn = pyLower r.name ∧ p.2.address = r.content) →
       pyEndsWith (pyLower r.name) (managedSuffix cfg) = true →
       ext.isTailscaleIP r.content = true →
       cleanupClassify ext cfg (current_ts_fqdns_ips ext cfg inventory) r = CleanupClass.deleteStale) := by
  constructor
  · intro desired r
    exact cleanupClassify_currentRec_iff
  · intro inventory r hinv hr hnone hend hmesh
    refine cleanupClassify_deleteStale_iff.mpr ⟨?_, hend, hmesh⟩
    by_cases hany : (current_ts_fqdns_ips ext cfg inventory).any
        (fun p => p.1 == pyLower r.name ++ "_" ++ r.content) = true
    · exfalso
      obtain ⟨p, hp, hkey⟩ := List.any_eq_true.mp hany
      obtain ⟨dev, hdev, hpdev⟩ := mem_current_ts hp
      have hk : p.1 = pyLower r.name ++ "_" ++ r.content := beq_iff_eq.mp hkey
      have hp1 : p.1 = (desiredOf ext cfg dev).fqdn ++ "_" ++ (desiredOf ext cfg dev).address := by
        rw [hpdev]
        rfl
      have haddr : '_' ∉ (desiredOf ext cfg dev).address.data := hinv dev hdev
      obtain ⟨hf, ha⟩ := key_inj haddr hr (hp1.symm.trans hk)
      exact hnone ⟨p, hp, by rw [hpdev]; exact ⟨hf, ha⟩⟩
    · exact Bool.eq_false_iff.mpr hany

/-- C10 witness: the desired address `"fd7a::1"` and the zone content
`"fd7a:0:0:0:0:0:0:1"` denote the same IPv6 address in different textual
forms; the record is not current and is classified stale. -/
theorem c10_exact_key_currency_witness :
    cleanupClassify extId cfgTs (current_ts_fqdns_ips extId cfgTs [⟨"host", "fd7a::1"⟩])
        ⟨"1", "host.example.com", "fd7a:0:0:0:0:0:0:1"⟩ = CleanupClass.deleteStale :=
  (c10_exact_key_currency extId cfgTs).2 [⟨"host", "fd7a::1"⟩]
    ⟨"1", "host.example.com", "fd7a:0:0:0:0:0:0:1"⟩
    (by decide) (by decide) (by decide) (by decide) (by decide)

/-! ## Builder structure lemmas -/

theorem str_append_assoc (a b c : String) : a ++ b ++ c = a ++ (b ++ c) := by
  apply string_ext
  rw [data_append, data_append, data_append, data_append, List.append_assoc]

theorem pyLower_dot : pyLower "." = "." := rfl

theorem pyLower_subPart (cfg : SyncConfig) : pyLower (subPart cfg) = subPart cfg := by
  obtain ⟨mo, dom, sub⟩ := cfg
  cases sub with
  | none => rfl
  | some s =>
    simp only [subPart]
    by_cases hs : s = ""
    · rw [if_pos hs]
      rfl
    · rw [if_neg hs, pyLower_append, pyLower_idem, pyLower_dot]

theorem fqdnOf_decomp (ext : Externals) (cfg : SyncConfig) (h : String) :
    fqdnOf ext cfg h = ext.alterHostname (pyLower (firstLabel h)) ++ managedSuffix cfg := by
  rw [fqdnOf, managedSuffix,
    str_append_assoc (ext.alterHostname (pyLower (firstLabel h))) (subPart cfg) ".",
    str_append_assoc (ext.alterHostname (pyLower (firstLabel h))) (subPart cfg ++ ".") (pyLower cfg.cf_domain)]

theorem fqdnOf_endsWith (ext : Externals) (cfg : SyncConfig) (h : String) :
    pyEndsWith (fqdnOf ext cfg h) (managedSuffix cfg) = true := by
  rw [fqdnOf_decomp]
  exact pyEndsWith_append _ _

theorem pyLower_fqdnOf (ext : Externals) (cfg : SyncConfig) (h : String)
    (ha : pyLower (ext.alterHostname (pyLower (firstLabel h))) = ext.alterHostname (pyLower (firstLabel h))) :
    pyLower (fqdnOf ext cfg h) = fqdnOf ext cfg h := by
  rw [fqdnOf, pyLower_append, pyLower_append, pyLower_append, ha, pyLower_subPart, pyLower_idem,
    pyLower_dot]

/-! ## Dictionary key-uniqueness lemmas -/

theorem map_fst_insertKey_of_mem {m : List (String × DesiredRecord)} {k : String}
    (v : DesiredRecord) (h : k ∈ m.map Prod.fst) :
    (insertKey m k v).map Prod.fst = m.map Prod.fst := by
  induction m with
  | nil => simp at h
  | cons q rest ih =>
    obtain ⟨k', v'⟩ := q
    rw [insertKey]
    by_cases hk : k' = k
    · rw [if_pos hk]
      simp
    · rw [if_neg hk]
      rw [List.map_cons] at h
      rcases List.mem_cons.mp h with h0 | h0
      · exact absurd h0.symm hk
      · rw [List.map_cons, List.map_cons, ih h0]

theorem map_fst_insertKey_of_not_mem {m : List (String × DesiredRecord)} {k : String}
    (v : DesiredRecord) (h : k ∉ m.map Prod.fst) :
    (insertKey m k v).map Prod.fst = m.map Prod.fst ++ [k] := by
  induction m with
  | nil => rfl
  | cons q rest ih =>
    obtain ⟨k', v'⟩ := q
    rw [insertKey]
    by_cases hk : k' = k
    · exfalso
      apply h
      rw [hk, List.map_cons]
      exact List.mem_cons_self _ _
    · rw [if_neg hk, List.map_cons, List.map_cons, ih (fun hmem => h (List.mem_cons_of_mem _ hmem))]
      rfl

theorem nodup_insertKey {m : List (String × DesiredRecord)} {k : String} {v : DesiredRecord}
    (h : (m.map Prod.fst).Nodup) : ((insertKey m k v).map Prod.fst).Nodup := by
  by_cases hk : k ∈ m.map Prod.fst
  · rw [map_fst_insertKey_of_mem v hk]
    exact h
  · rw [map_fst_insertKey_of_not_mem v hk]
    rw [List.nodup_append]
    exact ⟨h, List.nodup_singleton k, fun a ha hb => by
      rw [List.mem_singleton] at hb
      rw [hb] at ha
      exact hk ha⟩

theorem nodup_foldl_insert (ext : Externals) (cfg : SyncConfig) :
    ∀ (devs : List MeshDevice) (m : List (String × DesiredRecord)),
      (m.map Prod.fst).Nodup →
      (((devs.foldl (fun m d => insertKey m (keyOf ext cfg d) (desiredOf ext cfg d)) m)).map Prod.fst).Nodup := by
  intro devs
  induction devs with
  | nil =>
    intro m h
    exact h
  | cons d devs ih =>
    intro m h
    rw [List.foldl_cons]
    exact ih _ (nodup_insertKey h)

theorem filter_insertKey_self {m : List (String × DesiredRecord)} {k : String} {v : DesiredRecord}
    (h : (m.map Prod.fst).Nodup) :
    (insertKey m k v).filter (fun p => p.1 == k) = [(k, v)] := by
  induction m with
  | nil => simp [insertKey]
  | cons q rest ih =>
    obtain ⟨k', v'⟩ := q
    rw [insertKey]
    by_cases hk : k' = k
    · subst hk
      rw [if_pos rfl]
      have hknotin : k' ∉ List.map Prod.fst rest := by
        rw [List.map_cons] at h
        exact (List.nodup_cons.mp h).1
      have hrest : rest.filter (fun p => p.1 == k') = [] := by
        rw [List.filter_eq_nil_iff]
        intro p hp hpk
        exact hknotin (beq_iff_eq.mp hpk ▸ List.mem_map_of_mem Prod.fst hp)
      simp [List.filter_cons, hrest]
    · rw [if_neg hk]
      have h' : (List.map Prod.fst rest).Nodup := by
        rw [List.map_cons] at h
        exact (List.nodup_cons.mp h).2
      simp [List.filter_cons, hk, ih h']

theorem filter_insertKey_other {m : List (String × DesiredRecord)} {k k' : String} {v : DesiredRecord}
    (hkk : k' ≠ k) :
    (insertKey m k' v).filter (fun p => p.1 == k) = m.filter (fun p => p.1 == k) := by
  induction m with
  | nil =>
    simp [insertKey, List.filter_cons, hkk]
  | cons q rest ih =>
    obtain ⟨k0, v0⟩ := q
    rw [insertKey]
    by_cases hk0 : k0 = k'
    · rw [if_pos hk0]
      subst hk0
      simp [List.filter_cons, hkk]
    · rw [if_neg hk0]
      simp only [List.filter_cons]
      by_cases hc : k0 = k
      · simp [hc, ih]
      · simp [hc, ih]

theorem filter_foldl_insert_no_key (ext : Externals) (cfg : SyncConfig) {k : String} :
    ∀ (devs : List MeshDevice) (m : List (String × DesiredRecord)),
      (∀ d ∈ devs, keyOf ext cfg d ≠ k) →
      ((devs.foldl (fun m d => insertKey m (keyOf ext cfg d) (desiredOf ext cfg d)) m)).filter
          (fun p => p.1 == k) =
        m.filter (fun p => p.1 == k) := by
  intro devs
  induction devs with
  | nil =>
    intro m _
    rfl
  | cons d devs ih =>
    intro m h
    rw [List.foldl_cons]
    rw [ih _ (fun d' hd' => h d' (List.mem_cons_of_mem _ hd'))]
    exact filter_insertKey_other (h d (List.mem_cons_self _ _))

/-- C7 counterexample: with a transform producing an upper-case character,
the built fqdn is not all lower-case (the code lower-cases the label, the
subdomain and the domain before assembling, but never the transform output),
contradicting the claim's "the whole fqdn lower-case" clause. -/
theorem c7_builder_counterexample :
    fqdnOf ⟨fun s => "X" ++ s, fun _ => true, fun _ => true, fun _ => some 4⟩ cfgTs "laptop" =
      "Xlaptop.example.com" ∧
    pyLower (fqdnOf ⟨fun s => "X" ++ s, fun _ => true, fun _ => true, fun _ => some 4⟩ cfgTs "laptop") ≠
      fqdnOf ⟨fun s => "X" ++ s, fun _ => true, fun _ => true, fun _ => some 4⟩ cfgTs "laptop" := by
  decide

/-- C7 amended: for every MeshDevice the Desired-State Builder derives
`fqdn = transform(lower(first label)) + subPart + "." + lower(domain)`,
stores the record under the key `fqdn + "_" + address`, and every produced
fqdn ends with the managed suffix; the fqdn is all lower-case whenever the
transform output on the lower-cased label is lower-case (but not in
general, as the counterexample shows). -/
theorem c7_builder_amended (ext : Externals) (cfg : SyncConfig) (dev : MeshDevice) :
    keyOf ext cfg dev = fqdnOf ext cfg dev.hostname ++ "_" ++ dev.address ∧
    fqdnOf ext cfg dev.hostname =
      ext.alterHostname (pyLower (firstLabel dev.hostname)) ++ subPart cfg ++ "." ++ pyLower cfg.cf_domain ∧
    pyEndsWith (fqdnOf ext cfg dev.hostname) (managedSuffix cfg) = true ∧
    (∀ devs, dev ∈ devs → ∃ v, (keyOf ext cfg dev, v) ∈ current_ts_fqdns_ips ext cfg devs) ∧
    (pyLower (ext.alterHostname (pyLower (firstLabel dev.hostname))) =
       ext.alterHostname (pyLower (firstLabel dev.hostname)) →
     pyLower (fqdnOf ext cfg dev.hostname) = fqdnOf ext cfg dev.hostname) := by
  refine ⟨rfl, rfl, fqdnOf_endsWith ext cfg dev.hostname, ?_, pyLower_fqdnOf ext cfg dev.hostname⟩
  intro devs hdev
  exact key_mem_current_ts hdev

/-- C7 amended witness: `laptop` under `example.com` with the identity
transform is stored under its own key and its fqdn is lower-case. -/
theorem c7_builder_amended_witness :
    (∃ v, (keyOf extId cfgTs ⟨"laptop", "100.64.0.1"⟩, v) ∈
        current_ts_fqdns_ips extId cfgTs [⟨"laptop", "100.64.0.1"⟩]) ∧
    pyLower (fqdnOf extId cfgTs "laptop") = fqdnOf extId cfgTs "laptop" :=
  ⟨(c7_builder_amended extId cfgTs ⟨"laptop", "100.64.0.1"⟩).2.2.2.1 [⟨"laptop", "100.64.0.1"⟩]
     (List.mem_singleton.mpr rfl),
   (c7_builder_amended extId cfgTs ⟨"laptop", "100.64.0.1"⟩).2.2.2.2 (by decide)⟩

/-- C8: last-write-wins — when two devices collide on the same DesiredSet
key and no later device shares it, the built DesiredSet holds exactly one
entry for that key, namely the record derived from the later device. -/
theorem c8_last_write_wins (ext : Externals) (cfg : SyncConfig)
    (pre mid post : List MeshDevice) (d1 d2 : MeshDevice)
    (_hk : keyOf ext cfg d1 = keyOf ext cfg d2)
    (hpost : ∀ d ∈ post, keyOf ext cfg d ≠ keyOf ext cfg d2) :
    (current_ts_fqdns_ips ext cfg (pre ++ d1 :: mid ++ d2 :: post)).filter
        (fun p => p.1 == keyOf ext cfg d2) =
      [(keyOf ext cfg d2, desiredOf ext cfg d2)] := by
  rw [current_ts_fqdns_ips, List.foldl_append, List.foldl_cons, List.foldl_append, List.foldl_cons]
  rw [filter_foldl_insert_no_key ext cfg post _ hpost]
  apply filter_insertKey_self
  exact nodup_foldl_insert ext cfg mid _
    (nodup_insertKey (nodup_foldl_insert ext cfg pre [] List.nodup_nil))

/-- C8 witness: `A.x` and `a` both map to key `a.example.com_100.64.0.1`;
the single resulting entry carries the later device's original hostname. -/
theorem c8_last_write_wins_witness :
    (current_ts_fqdns_ips extId cfgTs [⟨"A.x", "100.64.0.1"⟩, ⟨"a", "100.64.0.1"⟩]).filter
        (fun p => p.1 == keyOf extId cfgTs ⟨"a", "100.64.0.1"⟩) =
      [(keyOf extId cfgTs ⟨"a", "100.64.0.1"⟩, desiredOf extId cfgTs ⟨"a", "100.64.0.1"⟩)] :=
  c8_last_write_wins extId cfgTs [] [] [] ⟨"A.x", "100.64.0.1"⟩ ⟨"a", "100.64.0.1"⟩
    (by decide) (by intro d hd; simp at hd)

/-! ## Idempotence and convergence -/

theorem isMatched_append_left {zone zone' : List ZoneRecord} {d : DesiredRecord}
    (h : isMatched zone d = true) : isMatched (zone ++ zone') d = true := by
  rw [isMatched] at h ⊢
  rw [List.any_append, h]
  rfl

/-- Identity transform, nothing valid, everything a mesh address, IPv4. -/
def extInvalid : Externals := ⟨fun s => s, fun _ => false, fun _ => true, fun _ => some 4⟩

/-- C6 counterexample: with a device whose hostname fails the validity
predicate, the first creation run issues no create, and the second run
(against the unchanged zone) classifies the desired record
SKIPPING-INVALID-HOSTNAME again — not UP-TO-DATE — refuting the claim that
every DesiredRecord is classified UP-TO-DATE on the second run. -/
theorem c6_idempotence_counterexample :
    (runCreation extInvalid cfgTs
        ([] ++ (runCreation extInvalid cfgTs []
            (current_ts_fqdns_ips extInvalid cfgTs [⟨"laptop", "100.64.0.1"⟩])).2.1.map
          (createdRecord extInvalid cfgTs))
        (current_ts_fqdns_ips extInvalid cfgTs [⟨"laptop", "100.64.0.1"⟩])).2.1 = [] ∧
    (runCreation extInvalid cfgTs
        ([] ++ (runCreation extInvalid cfgTs []
            (current_ts_fqdns_ips extInvalid cfgTs [⟨"laptop", "100.64.0.1"⟩])).2.1.map
          (createdRecord extInvalid cfgTs))
        (current_ts_fqdns_ips extInvalid cfgTs [⟨"laptop", "100.64.0.1"⟩])).1 ≠
      (current_ts_fqdns_ips extInvalid cfgTs [⟨"laptop", "100.64.0.1"⟩]).map
        (fun _ => CreateClass.upToDate) := by
  decide

/-- C6 amended: if every device hostname passes the validity predicate,
every address parses, and every built fqdn is lower-case (the transform
preserves lower-casing), then running the creation phase a second time,
against the zone as it stands after the first run's creates were applied,
issues zero create calls and classifies every DesiredRecord UP-TO-DATE. -/
theorem c6_idempotence_amended (ext : Externals) (cfg : SyncConfig)
    (inventory : List MeshDevice) (zone0 : List ZoneRecord)
    (hval : ∀ dev ∈ inventory, ext.isValidDNSRecord dev.hostname = true)
    (hparse : ∀ dev ∈ inventory, (ext.ipVersion dev.address).isSome = true)
    (hlow : ∀ dev ∈ inventory, pyLower (fqdnOf ext cfg dev.hostname) = fqdnOf ext cfg dev.hostname) :
    runCreation ext cfg
        (zone0 ++ (runCreation ext cfg zone0 (current_ts_fqdns_ips ext cfg inventory)).2.1.map
          (createdRecord ext cfg))
        (current_ts_fqdns_ips ext cfg inventory) =
      ((current_ts_fqdns_ips ext cfg inventory).map (fun _ => CreateClass.upToDate), [], true) := by
  have hparse' : ∀ q ∈ current_ts_fqdns_ips ext cfg inventory,
      (ext.ipVersion q.2.address).isSome = true := by
    intro q hq
    obtain ⟨dv, hdv, hqd⟩ := mem_current_ts hq
    rw [hqd]
    exact hparse dv hdv
  have hok : (runCreation ext cfg zone0 (current_ts_fqdns_ips ext cfg inventory)).2.2 = true :=
    runCreation_ok hparse'
  apply runCreation_all_matched
  intro p hp
  obtain ⟨k, d⟩ := p
  obtain ⟨dev, hdev, hpdev⟩ := mem_current_ts hp
  have hd : d = desiredOf ext cfg dev := congrArg Prod.snd hpdev
  have hvald : ext.isValidDNSRecord d.original_hostname = true := by
    rw [hd]
    exact hval dev hdev
  rcases runCreation_satisfies hok hvald hp with hm | ⟨v, _hv, hcall⟩
  · exact isMatched_append_left hm
  · apply isMatched_iff.mpr
    refine ⟨createdRecord ext cfg (mkCall cfg d v), ?_, ?_, ?_⟩
    · exact List.mem_append_right _ (List.mem_map_of_mem _ hcall)
    · rw [hd, createdRecord_mkCall]
      show pyLower (fqdnOf ext cfg dev.hostname) = (desiredOf ext cfg dev).fqdn
      rw [hlow dev hdev]
      rfl
    · rw [hd, createdRecord_mkCall]
      rfl

/-- C6 amended witness: a one-device inventory against the zone produced by
the first run yields all-UP-TO-DATE and zero calls on the second run. -/
theorem c6_idempotence_amended_witness :
    runCreation extId cfgTs
        ([] ++ (runCreation extId cfgTs []
            (current_ts_fqdns_ips extId cfgTs [⟨"laptop", "100.64.0.1"⟩])).2.1.map
          (createdRecord extId cfgTs))
        (current_ts_fqdns_ips extId cfgTs [⟨"laptop", "100.64.0.1"⟩]) =
      ((current_ts_fqdns_ips extId cfgTs [⟨"laptop", "100.64.0.1"⟩]).map
        (fun _ => CreateClass.upToDate), [], true) :=
  c6_idempotence_amended extId cfgTs [⟨"laptop", "100.64.0.1"⟩] []
    (by decide) (by decide) (by decide)

/-- C1 counterexample: the Desired-State Builder does not filter on hostname
validity, so with a device whose hostname fails the validity predicate the
cycle completes without errors yet the managed subset of the resulting zone
(empty) differs from the FQDN+IP pairs derivable from the inventory (one
pair): the creation phase skipped the candidate instead of creating it. -/
theorem c1_convergence_counterexample :
    (perform_sync_cycle extInvalid cfgTs [⟨"laptop", "100.64.0.1"⟩] []).completed = true ∧
    (∃ p, p ∈ current_ts_fqdns_ips extInvalid cfgTs [⟨"laptop", "100.64.0.1"⟩] ∧
       p.2.fqdn = "laptop.example.com" ∧ p.2.address = "100.64.0.1") ∧
    ¬ ∃ r, r ∈ (perform_sync_cycle extInvalid cfgTs [⟨"laptop", "100.64.0.1"⟩] []).finalZone ∧
        pyLower r.name = "laptop.example.com" ∧ r.content = "100.64.0.1" := by
  decide

/-- C1 amended: convergence holds under the data-model and configuration
assumptions the code relies on — a recognized mode, every device hostname
passing the validity predicate, every address parsing and passing the
mesh-address predicate, the transform preserving lower-casing of the built
fqdns, and no underscore in any address or zone content (the composite-key
separator): after one error-free cycle the managed subset of the resulting
zone equals exactly the lowercased-FQDN+IP pairs of the DesiredSet. -/
theorem c1_convergence_amended (ext : Externals) (cfg : SyncConfig)
    (inventory : List MeshDevice) (zone0 : List ZoneRecord)
    (hmode : cfg.mode = "tailscale" ∨ cfg.mode = "headscale")
    (hval : ∀ dev ∈ inventory, ext.isValidDNSRecord dev.hostname = true)
    (hparse : ∀ dev ∈ inventory, (ext.ipVersion dev.address).isSome = true)
    (hmesh : ∀ dev ∈ inventory, ext.isTailscaleIP dev.address = true)
    (hlow : ∀ dev ∈ inventory, pyLower (fqdnOf ext cfg dev.hostname) = fqdnOf ext cfg dev.hostname)
    (haddr : ∀ dev ∈ inventory, '_' ∉ dev.address.data)
    (hzone : ∀ r ∈ zone0, '_' ∉ r.content.data) :
    (perform_sync_cycle ext cfg inventory zone0).completed = true ∧
    ∀ n c,
      ((∃ r, r ∈ (perform_sync_cycle ext cfg inventory zone0).finalZone ∧
          pyLower r.name = n ∧ r.content = c) ∧
        pyEndsWith n (managedSuffix cfg) = true ∧ ext.isTailscaleIP c = true) ↔
      (∃ p, p ∈ current_ts_fqdns_ips ext cfg inventory ∧ p.2.fqdn = n ∧ p.2.address = c) := by
  have hparse' : ∀ q ∈ current_ts_fqdns_ips ext cfg inventory,
      (ext.ipVersion q.2.address).isSome = true := by
    intro q hq
    obtain ⟨dv, hdv, hqd⟩ := mem_current_ts hq
    rw [hqd]
    exact hparse dv hdv
  have hok : (runCreation ext cfg zone0 (current_ts_fqdns_ips ext cfg inventory)).2.2 = true :=
    runCreation_ok hparse'
  have hzone1 : ∀ r ∈ zone0 ++ (runCreation ext cfg zone0 (current_ts_fqdns_ips ext cfg inventory)).2.1.map
      (createdRecord ext cfg), '_' ∉ r.content.data := by
    intro r hr
    rcases List.mem_append.mp hr with h0 | h0
    · exact hzone r h0
    · obtain ⟨call, hcall, hcr⟩ := List.mem_map.mp h0
      obtain ⟨k0, d0, hd0mem, _hval0, v0, _hv0, hcall'⟩ := runCreation_calls_src hcall
      obtain ⟨dv, hdv, hd0⟩ := mem_current_ts hd0mem
      have hd0snd : d0 = desiredOf ext cfg dv := congrArg Prod.snd hd0
      have hc : r.content = dv.address := by
        rw [← hcr, hcall', hd0snd]
        rfl
      rw [hc]
      exact haddr dv hdv
  rw [perform_sync_cycle_eq_of_ok hmode hok]
  refine ⟨rfl, ?_⟩
  intro n c
  constructor
  · rintro ⟨⟨r, hr, hname, hcontent⟩, hend, hmeshc⟩
    obtain ⟨hrz1, hrnd⟩ := List.mem_filter.mp hr
    have hnotdel : cleanupClassify ext cfg (current_ts_fqdns_ips ext cfg inventory) r ≠
        CleanupClass.deleteStale := by
      intro hcon
      rw [hcon] at hrnd
      simp at hrnd
    have hcur : cleanupClassify ext cfg (current_ts_fqdns_ips ext cfg inventory) r =
        CleanupClass.currentRec := by
      by_cases hany : (current_ts_fqdns_ips ext cfg inventory).any
          (fun p => p.1 == pyLower r.name ++ "_" ++ r.content) = true
      · rw [cleanupClassify, if_pos hany]
      · exfalso
        apply hnotdel
        refine cleanupClassify_deleteStale_iff.mpr ⟨Bool.eq_false_iff.mpr hany, ?_, ?_⟩
        · rw [hname]
          exact hend
        · rw [hcontent]
          exact hmeshc
    obtain ⟨p, hp, hpk⟩ := List.any_eq_true.mp (cleanupClassify_currentRec_iff.mp hcur)
    obtain ⟨dev, hdev, hpdev⟩ := mem_current_ts hp
    have hp1 : p.1 = (desiredOf ext cfg dev).fqdn ++ "_" ++ (desiredOf ext cfg dev).address := by
      rw [hpdev]
      rfl
    have hkeq : (desiredOf ext cfg dev).fqdn ++ "_" ++ (desiredOf ext cfg dev).address =
        pyLower r.name ++ "_" ++ r.content := by
      rw [← hp1]
      exact beq_iff_eq.mp hpk
    obtain ⟨hf, ha⟩ := key_inj (haddr dev hdev) (hzone1 r hrz1) hkeq
    refine ⟨p, hp, ?_, ?_⟩
    · rw [hpdev]
      show (desiredOf ext cfg dev).fqdn = n
      rw [hf]
      exact hname
    · rw [hpdev]
      show dev.address = c
      rw [ha]
      exact hcontent
  · rintro ⟨p, hp, hfq, had⟩
    obtain ⟨k, d⟩ := p
    obtain ⟨dev, hdev, hpdev⟩ := mem_current_ts hp
    have hd : d = desiredOf ext cfg dev := congrArg Prod.snd hpdev
    have hk1 : k = keyOf ext cfg dev := congrArg Prod.fst hpdev
    have hvald : ext.isValidDNSRecord d.original_hostname = true := by
      rw [hd]
      exact hval dev hdev
    have hmain : ∃ r0, r0 ∈ zone0 ++ (runCreation ext cfg zone0 (current_ts_fqdns_ips ext cfg inventory)).2.1.map
        (createdRecord ext cfg) ∧ pyLower r0.name = d.fqdn ∧ r0.content = d.address := by
      rcases runCreation_satisfies hok hvald hp with hm | ⟨v, _hv, hcall⟩
      · obtain ⟨r0, hr0, hr0n, hr0c⟩ := isMatched_iff.mp hm
        exact ⟨r0, List.mem_append_left _ hr0, hr0n, hr0c⟩
      · refine ⟨createdRecord ext cfg (mkCall cfg d v),
          List.mem_append_right _ (List.mem_map_of_mem _ hcall), ?_, ?_⟩
        · rw [hd, createdRecord_mkCall]
          show pyLower (fqdnOf ext cfg dev.hostname) = (desiredOf ext cfg dev).fqdn
          rw [hlow dev hdev]
          rfl
        · rw [hd, createdRecord_mkCall]
          rfl
    obtain ⟨r0, hr0z, hr0n, hr0c⟩ := hmain
    have hkey : (current_ts_fqdns_ips ext cfg inventory).any
        (fun q => q.1 == pyLower r0.name ++ "_" ++ r0.content) = true := by
      apply List.any_eq_true.mpr
      refine ⟨(k, d), hp, ?_⟩
      show (k == pyLower r0.name ++ "_" ++ r0.content) = true
      apply beq_iff_eq.mpr
      rw [hr0n, hr0c, hk1, hd]
      rfl
    have hcur0 : cleanupClassify ext cfg (current_ts_fqdns_ips ext cfg inventory) r0 =
        CleanupClass.currentRec := cleanupClassify_currentRec_iff.mpr hkey
    refine ⟨⟨r0, ?_, ?_, ?_⟩, ?_, ?_⟩
    · apply List.mem_filter.mpr
      refine ⟨hr0z, ?_⟩
      show (!(cleanupClassify ext cfg (current_ts_fqdns_ips ext cfg inventory) r0 ==
        CleanupClass.deleteStale)) = true
      rw [hcur0]
      rfl
    · rw [hr0n, ← hfq]
    · rw [hr0c, ← had]
    · rw [← hfq, hd]
      show pyEndsWith (fqdnOf ext cfg dev.hostname) (managedSuffix cfg) = true
      exact fqdnOf_endsWith ext cfg dev.hostname
    · rw [← had, hd]
      show ext.isTailscaleIP dev.address = true
      exact hmesh dev hdev

/-- C1 amended witness: a one-device inventory with a pre-existing stale
managed record converges — the cycle completes and the desired pair is in
the managed subset of the final zone. -/
theorem c1_convergence_amended_witness :
    (perform_sync_cycle extId cfgTs [⟨"laptop", "100.64.0.1"⟩]
        [⟨"9", "stale.example.com", "100.64.0.9"⟩]).completed = true ∧
    ((∃ r, r ∈ (perform_sync_cycle extId cfgTs [⟨"laptop", "100.64.0.1"⟩]
          [⟨"9", "stale.example.com", "100.64.0.9"⟩]).finalZone ∧
        pyLower r.name = "laptop.example.com" ∧ r.content = "100.64.0.1") ∧
      pyEndsWith "laptop.example.com" (managedSuffix cfgTs) = true ∧
      extId.isTailscaleIP "100.64.0.1" = true) :=
  have h := c1_convergence_amended extId cfgTs [⟨"laptop", "100.64.0.1"⟩]
    [⟨"9", "stale.example.com", "100.64.0.9"⟩] (Or.inl rfl)
    (by decide) (by decide) (by decide) (by decide) (by decide) (by decide)
  ⟨h.1, (h.2 "laptop.example.com" "100.64.0.1").mpr (by decide)⟩

end DnsSync
